import Mathlib

/-!
Verification of the ts-dns forwarding proxy core: the domain router
(`getGroupName`), the upstream query helper (`queryDns`), the per-request
handler (`ServeDNS`) and the four transport callers (`outbound/caller.go`),
shallowly embedded as executable Lean functions.  External collaborators
(DNS message library, classifier, hosts sources, cache storage, network)
enter as explicit parameters; machine-level effects (network I/O, panics,
`log.Fatalln`) are reified in result types.
-/

namespace TsDns

/-- A DNS resource record.  The handler only ever inspects whether a record
is an IPv4 address record (`*dns.A`); everything else is opaque text. -/
inductive RR where
  | A (ip : String)
  | other (text : String)
deriving DecidableEq, Repr

/-- One entry of `dns.Msg.Question`: the query name and type. -/
structure Question where
  name : String
  qtype : Nat
deriving DecidableEq, Repr

/-- The parts of `dns.Msg` the core reads or writes: the question section,
the answer section and the extra section. -/
structure Msg where
  question : List Question
  answer : List RR
  extra : List RR
deriving DecidableEq, Repr

/-- `dns.TypeA`. -/
def typeA : Nat := 1

/-- `dns.TypeAAAA`. -/
def typeAAAA : Nat := 28

/-- `dns.Msg.SetReply`: stamp a response as a reply to `request` (the
handler's deferred `r.SetReply(request)` before `resp.WriteMsg(r)`). -/
def setReply (r : Msg) (request : Msg) : Msg :=
  { r with question := request.question }

/-- `strings.HasSuffix domain suffix`. -/
def hasSuffix (s suffix : String) : Bool :=
  List.isSuffixOf suffix.toList s.toList

/-- Fuel-indexed worker for `strings.Count`: counts non-overlapping
occurrences of `pat`, skipping past a match exactly as Go does.  The fuel
is the length of the scanned list, which each step consumes at least one
element of, so the fuel never runs out. -/
def countSubAux (pat : List Char) : Nat → List Char → Nat
  | _, [] => 0
  | 0, _ => 0
  | fuel + 1, c :: rest =>
    if pat.isPrefixOf (c :: rest) then
      1 + countSubAux pat fuel (rest.drop (pat.length - 1))
    else
      countSubAux pat fuel rest

/-- `strings.Count s pat` for a non-empty pattern: the number of
non-overlapping instances of `pat` in `s`. -/
def stringsCount (s pat : String) : Nat :=
  countSubAux pat.toList s.toList.length s.toList

/-- `getGroupName`, instrumented.  The suffix table `suffixMap` is a Go
`map[string]string`; Go gives no guarantee about the order `range`
enumerates it in, so the enumeration order is a parameter: `suffixOrder`
is the table in the order the loop happens to visit it.  The classifier
`config.GFWChecker.IsBlocked` is external and modelled as
`gfw : String → Option Bool` (`some blocked` when it reports a match,
`none` otherwise).  Returns the group, the reason, and the number of
classifier consultations performed. -/
def getGroupNameFull (suffixOrder : List (String × String))
    (gfw : String → Option Bool) (domain : String) : String × String × Nat :=
  match suffixOrder with
  | [] =>
    match gfw domain with
    | some true => ("dirty", "GFWList", 1)
    | some false => ("clean", "GFWList", 1)
    | none => ("clean", "default", 1)
  | (suffix, group) :: rest =>
    if hasSuffix domain suffix then (group, "suffix " ++ suffix, 0)
    else getGroupNameFull rest gfw domain

/-- `getGroupName` as the Go function returns it: `(group, reason)`. -/
def getGroupName (suffixOrder : List (String × String))
    (gfw : String → Option Bool) (domain : String) : String × String :=
  ((getGroupNameFull suffixOrder gfw domain).1,
   (getGroupNameFull suffixOrder gfw domain).2.1)

/-! ### Transport callers (`outbound/caller.go`) -/

/-- What the network does when `call` reaches it.  `direct` is the
`dialer == nil` path (`client.Exchange`); the other three are the stages of
the proxied path: `dialer.Dial` failing, `conn.WriteMsg` failing, or
`conn.ReadMsg` producing a result. -/
inductive CallNet where
  | direct (r : Option Msg) (e : Option String)
  | dialErr (e : String)
  | writeErr (e : String)
  | readRes (r : Option Msg) (e : Option String)
deriving DecidableEq, Repr

/-- Outcome of one `Call`.  `invalid` is the guard error
("request or server address cannot be empty"), returned before any network
activity; `io r e` is a result obtained after network I/O was performed
(dial, exchange, write or read all count); `errNoIO` is an error produced
without touching the network (DoH packing / request-creation failures);
`panicNilMsg` is a nil-pointer dereference inside the call. -/
inductive CallResult where
  | invalid
  | panicNilMsg
  | io (r : Option Msg) (e : Option String)
  | errNoIO (e : String)
deriving DecidableEq, Repr

/-- `call` in `outbound/caller.go`: validate, then exchange either directly
or through the proxy.  The `dns.Client` argument only selects how the
proxied connection is wrapped (plain or TLS), which is invisible at this
level of abstraction, so it is dropped. -/
def call (request : Option Msg) (address : String) (net : CallNet) : CallResult :=
  match request with
  | none => CallResult.invalid
  | some msg =>
    if msg.question.length ≤ 0 ∨ address = "" then CallResult.invalid
    else
      match net with
      | CallNet.direct r e => CallResult.io r e
      | CallNet.dialErr e => CallResult.io none (some e)
      | CallNet.writeErr e => CallResult.io none (some e)
      | CallNet.readRes r e => CallResult.io r e

/-- `outbound.UDPCaller`. -/
structure UDPCaller where
  Address : String
deriving DecidableEq, Repr

/-- `UDPCaller.Call`: delegates to `call` with the UDP client. -/
def UDPCaller.Call (caller : UDPCaller) (request : Option Msg) (net : CallNet) :
    CallResult :=
  call request caller.Address net

/-- `outbound.TCPCaller`. -/
structure TCPCaller where
  Address : String
deriving DecidableEq, Repr

/-- `TCPCaller.Call`: delegates to `call` with the TCP client. -/
def TCPCaller.Call (caller : TCPCaller) (request : Option Msg) (net : CallNet) :
    CallResult :=
  call request caller.Address net

/-- `outbound.TLSCaller` (its `client` carries only TLS configuration,
invisible here). -/
structure TLSCaller where
  address : String
deriving DecidableEq, Repr

/-- `TLSCaller.Call`: delegates to `call` with the TLS client. -/
def TLSCaller.Call (caller : TLSCaller) (request : Option Msg) (net : CallNet) :
    CallResult :=
  call request caller.address net

/-- `outbound.DoHCaller`. -/
structure DoHCaller where
  Url : String
deriving DecidableEq, Repr

/-- What the HTTP POST does when `DoHCaller.Call` reaches it. -/
inductive HttpNet where
  | postErr (e : String)
  | postOk (body : List Nat)
deriving DecidableEq, Repr

/-- `DoHCaller.Call`: pack the request, POST it, read and unpack the body.
`pack` stands for `dns.Msg.Pack` and `unpack` for `dns.Msg.Unpack`, both
external library functions.  There is no validation guard: a nil request is
dereferenced by `request.Pack()` (panic); a request with zero questions
packs fine and is sent over the network; an empty URL makes
`http.Post` fail while building the request, before any network I/O. -/
def DoHCaller.Call (caller : DoHCaller) (request : Option Msg)
    (pack : Msg → Except String (List Nat))
    (unpack : List Nat → Except String Msg) (net : HttpNet) : CallResult :=
  match request with
  | none => CallResult.panicNilMsg
  | some msg =>
    match pack msg with
    | Except.error e => CallResult.errNoIO e
    | Except.ok _ =>
      if caller.Url = "" then CallResult.errNoIO "http: no Host in request URL"
      else
        match net with
        | HttpNet.postErr e => CallResult.io none (some e)
        | HttpNet.postOk body =>
          match unpack body with
          | Except.error e => CallResult.io none (some e)
          | Except.ok m => CallResult.io (some m) none

/-! ### The upstream query helper and dispatch loop (`ServeDNS`) -/

/-- One record written by `setDNSCache question extra r`. -/
structure CacheWrite where
  question : Question
  extra : List RR
  resp : Option Msg
deriving DecidableEq, Repr

/-- What the network does for one `queryDns` invocation: `direct` is the
`dialer == nil` path (`dnsClient.Exchange`), the others are the stages of
the proxied path. -/
inductive QueryNet where
  | direct (r : Option Msg) (e : Option String)
  | dialErr (e : String)
  | writeErr (e : String)
  | readRes (r : Option Msg) (e : Option String)
deriving DecidableEq, Repr

/-- `queryDns`: one exchange with `server`, whose deferred function runs
`setDNSCache(question, extra, r)` on every return path with the final value
of the named result `r` — the cache write is attached to each branch
exactly as the defer fires.  Returns `(r, err, cache writes)`. -/
def queryDns (question : Question) (extra : List RR) (net : QueryNet) :
    Option Msg × Option String × List CacheWrite :=
  match net with
  | QueryNet.direct r e => (r, e, [⟨question, extra, r⟩])
  | QueryNet.dialErr e => (none, some e, [⟨question, extra, none⟩])
  | QueryNet.writeErr e => (none, some e, [⟨question, extra, none⟩])
  | QueryNet.readRes r e => (r, e, [⟨question, extra, r⟩])

/-- Result of the `ServeDNS` dispatch loop over a group's servers. -/
structure DispatchResult where
  resp : Option Msg
  invoked : List String
  writes : List CacheWrite
deriving DecidableEq, Repr

/-- The dispatch loop of `ServeDNS`: walk `group.DNS` in order, query each
server (`net i` is the network behaviour of the i-th attempt), log an error
when one is reported, and break at the first non-nil response. -/
def dispatch (question : Question) (extra : List RR) (net : Nat → QueryNet) :
    List String → DispatchResult
  | [] => ⟨none, [], []⟩
  | server :: rest =>
    let q := queryDns question extra (net 0)
    match q.1 with
    | some m => ⟨some m, [server], q.2.2⟩
    | none =>
      let d := dispatch question extra (fun i => net (i + 1)) rest
      ⟨d.resp, server :: d.invoked, q.2.2 ++ d.writes⟩

/-! ### The query handler (`handler.ServeDNS`) -/

/-- The per-group data `ServeDNS` reads: the ordered server list
(`group.DNS`) and whether an IPSet target is configured
(`group.IPSet != nil`). -/
structure Group where
  dns : List String
  hasIPSet : Bool

/-- One hosts source: `GenRecord(name, qtype)` returns record text or
the empty string (external contract of the hosts package). -/
structure HostsReader where
  genRecord : String → Nat → String

/-- Everything `ServeDNS` reads besides the request: the global
`hostsReaders`, the external record parser `dns.NewRR`, the external cache
lookup `getDNSCache`, the routing configuration, the group table
`config.Groups`, and the network behaviour of each dispatch attempt. -/
structure Env where
  hostsReaders : List HostsReader
  newRR : String → Option RR
  cacheGet : Question → List RR → Option Msg
  suffixOrder : List (String × String)
  gfw : String → Option Bool
  groups : List (String × Group)
  net : Nat → QueryNet

/-- Observable side effects of one `ServeDNS` run. -/
structure Trace where
  hostsConsulted : Nat
  cacheChecked : Bool
  classifierCalls : Nat
  invoked : List String
  cacheWrites : List CacheWrite
  ipsetAdds : List String
deriving DecidableEq, Repr

/-- The trace before any stage has run. -/
def Trace.empty : Trace := ⟨0, false, 0, [], [], []⟩

/-- How one `ServeDNS` run ends.  `panicEmptyQuestion` is the out-of-bounds
access `request.Question[0]` on an empty question list;
`fatalRecursive` is `log.Fatalln("[CRITICAL] recursive query")`, which
exits the process; `panicSliceBounds` is `question.Name[:len-1]` on an
empty name; `panicNilAnswer` is the dereference `r.Answer` with `r == nil`
in the IPSet write-back; `ok reply` is a normal return, where the deferred
function writes `reply` when it is non-nil and otherwise sends nothing. -/
inductive Outcome where
  | panicEmptyQuestion
  | fatalRecursive
  | panicSliceBounds
  | panicNilAnswer
  | ok (reply : Option Msg)
deriving DecidableEq, Repr

/-- Result of one `ServeDNS` run: the outcome plus the side-effect trace. -/
structure ServeResult where
  outcome : Outcome
  trace : Trace
deriving DecidableEq, Repr

/-- Result of the hosts stage: no source had a record (`noMatch`, with the
number of sources consulted), or a source produced a non-empty record and
the handler returns (`matched`, carrying the reply — `none` when
`dns.NewRR` failed — and the number of sources consulted), or the
unconditional `question.Name[:len-1]` sliced an empty name. -/
inductive HostsOut where
  | noMatch (consulted : Nat)
  | matched (reply : Option Msg) (consulted : Nat)
  | panicEmpty
deriving DecidableEq, Repr

/-- The hosts loop of `ServeDNS`: for each reader, look up the name with
the trailing character stripped, fall back to the unstripped name, and on
the first non-empty record build the answer with `dns.NewRR` and return. -/
def hostsLookup (newRR : String → Option RR) (name : String) (qtype : Nat) :
    List HostsReader → HostsOut
  | [] => HostsOut.noMatch 0
  | reader :: rest =>
    if name = "" then HostsOut.panicEmpty
    else
      let hostname := name.dropRight 1
      let record0 := reader.genRecord hostname qtype
      let record := if record0 = "" then reader.genRecord name qtype else record0
      if record = "" then
        match hostsLookup newRR name qtype rest with
        | HostsOut.noMatch n => HostsOut.noMatch (n + 1)
        | HostsOut.matched r n => HostsOut.matched r (n + 1)
        | HostsOut.panicEmpty => HostsOut.panicEmpty
      else
        match newRR record with
        | none => HostsOut.matched none 1
        | some rr => HostsOut.matched (some ⟨[], [rr], []⟩) 1

/-- The IPv4 addresses the IPSet write-back extracts from an answer
section (the `switch answer.(type) { case *dns.A: ... }` loop). -/
def aRecordIPs (answer : List RR) : List String :=
  answer.filterMap fun rr =>
    match rr with
    | RR.A ip => some ip
    | RR.other _ => none

/-- `handler.ServeDNS`, with the deferred reply/close folded into each
outcome: read `Question[0]`, apply the anti-recursion guard, try hosts
(address-family types only), try the cache, route, dispatch with fallback,
and run the IPSet write-back when the group declares a target. -/
def ServeDNS (env : Env) (request : Msg) : ServeResult :=
  match request.question with
  | [] => ⟨Outcome.panicEmptyQuestion, Trace.empty⟩
  | question :: _ =>
    if stringsCount question.name ".ne-" > 1 then
      ⟨Outcome.fatalRecursive, Trace.empty⟩
    else
      let hostsRes :=
        if question.qtype = typeA ∨ question.qtype = typeAAAA then
          hostsLookup env.newRR question.name question.qtype env.hostsReaders
        else HostsOut.noMatch 0
      match hostsRes with
      | HostsOut.panicEmpty => ⟨Outcome.panicSliceBounds, Trace.empty⟩
      | HostsOut.matched reply n =>
        ⟨Outcome.ok (reply.map fun r => setReply r request),
         { Trace.empty with hostsConsulted := n }⟩
      | HostsOut.noMatch n =>
        match env.cacheGet question request.extra with
        | some cached =>
          ⟨Outcome.ok (some (setReply cached request)),
           { Trace.empty with hostsConsulted := n, cacheChecked := true }⟩
        | none =>
          let route := getGroupNameFull env.suffixOrder env.gfw question.name
          let t0 : Trace :=
            { Trace.empty with hostsConsulted := n, cacheChecked := true, classifierCalls := route.2.2 }
          match List.lookup route.1 env.groups with
          | none => ⟨Outcome.ok none, t0⟩
          | some group =>
            let d := dispatch question request.extra env.net group.dns
            let t1 : Trace :=
              { t0 with invoked := d.invoked, cacheWrites := d.writes }
            if group.hasIPSet then
              match d.resp with
              | none => ⟨Outcome.panicNilAnswer, t1⟩
              | some m =>
                ⟨Outcome.ok (some (setReply m request)),
                 { t1 with ipsetAdds := aRecordIPs m.answer }⟩
            else
              ⟨Outcome.ok (d.resp.map fun r => setReply r request), t1⟩

/-! ### Concrete configurations used by closed statements -/

/-- A minimal environment: no hosts sources, empty cache, empty suffix
table, classifier that never matches, no groups, all upstreams silent. -/
def env0 : Env :=
  { hostsReaders := [], newRR := fun _ => none, cacheGet := fun _ _ => none,
    suffixOrder := [], gfw := fun _ => none, groups := [],
    net := fun _ => QueryNet.direct none none }

/-- A configuration whose `clean` group declares an IPSet target and whose
two upstream servers both fail (nil response with an error). -/
def exhaustEnv : Env :=
  { hostsReaders := [], newRR := fun _ => none, cacheGet := fun _ _ => none,
    suffixOrder := [], gfw := fun _ => none,
    groups := [("clean", ⟨["8.8.8.8:53", "1.1.1.1:53"], true⟩)],
    net := fun _ => QueryNet.direct none (some "timeout") }

/-- A configuration with one hosts source that returns a non-empty record
for every name, under a record parser that rejects that record (as
`dns.NewRR` does for malformed text). -/
def hostsBadEnv : Env :=
  { hostsReaders := [⟨fun _ _ => "not a valid rr"⟩], newRR := fun _ => none,
    cacheGet := fun _ _ => none, suffixOrder := [], gfw := fun _ => none,
    groups := [], net := fun _ => QueryNet.direct none none }

/-- Network behaviour where attempt 0 fails with an error and a nil
response, attempt 1 succeeds, and later attempts return nothing. -/
def netFailThenOk : Nat → QueryNet := fun i =>
  if i = 0 then QueryNet.direct none (some "connection refused")
  else if i = 1 then QueryNet.direct (some ⟨[], [RR.A "1.2.3.4"], []⟩) none
  else QueryNet.direct none none

/-! ### Helper lemmas -/

/-- Every `queryDns` branch records exactly one cache write, keyed by the
question and extra records, holding the response it returns. -/
theorem queryDns_writes (question : Question) (extra : List RR) (net : QueryNet) :
    (queryDns question extra net).2.2 =
      [⟨question, extra, (queryDns question extra net).1⟩] := by
  cases net <;> rfl

/-- The hosts loop stops at the first reader producing a non-empty record
(stripped name first, unstripped as fallback) and builds the reply from
`dns.NewRR` on that record. -/
theorem hostsLookup_first (newRR : String → Option RR) (name : String)
    (qtype : Nat) (pre post : List HostsReader) (reader : HostsReader)
    (record : String) (hname : name ≠ "")
    (hpre : ∀ rd ∈ pre, rd.genRecord (name.dropRight 1) qtype = "" ∧
      rd.genRecord name qtype = "")
    (hrec : record = (if reader.genRecord (name.dropRight 1) qtype = ""
      then reader.genRecord name qtype
      else reader.genRecord (name.dropRight 1) qtype))
    (hne : record ≠ "") :
    hostsLookup newRR name qtype (pre ++ reader :: post) =
      HostsOut.matched ((newRR record).map fun rr => (⟨[], [rr], []⟩ : Msg))
        (pre.length + 1) := by
  induction pre with
  | nil =>
    simp only [List.nil_append, hostsLookup, hname, if_false, List.length_nil]
    rw [← hrec]
    rw [if_neg hne]
    cases h : newRR record <;> simp [h]
  | cons rd pre ih =>
    have h1 := hpre rd (by simp)
    simp only [List.cons_append, hostsLookup, hname, if_false, h1.1, h1.2,
      if_true, ite_self, List.append_eq]
    rw [ih fun q hq => hpre q (by simp [hq])]
    simp [Nat.add_comm, Nat.add_assoc]

/-! ### Claim theorems -/

/-- C10: the handler reads `request.Question[0]` unconditionally, so a
request with an empty question list hits an out-of-bounds access before
anything else runs. -/
theorem ServeDNS_empty_question_panics (env : Env) (request : Msg)
    (h : request.question = []) :
    ServeDNS env request = ⟨Outcome.panicEmptyQuestion, Trace.empty⟩ := by
  simp [ServeDNS, h]

theorem ServeDNS_empty_question_panics_witness :
    ServeDNS env0 ⟨[], [], []⟩ = ⟨Outcome.panicEmptyQuestion, Trace.empty⟩ :=
  ServeDNS_empty_question_panics env0 ⟨[], [], []⟩ rfl

/-- C9: a query name containing the loop marker `.ne-` more than once
takes the fatal path (`log.Fatalln`, which exits the process) before any
hosts lookup, cache lookup, routing or dispatch: the trace is empty. -/
theorem ServeDNS_loop_guard_fatal (env : Env) (request : Msg)
    (question : Question) (qs : List Question)
    (hq : request.question = question :: qs)
    (hcount : stringsCount question.name ".ne-" > 1) :
    ServeDNS env request = ⟨Outcome.fatalRecursive, Trace.empty⟩ := by
  simp [ServeDNS, hq, hcount]

theorem ServeDNS_loop_guard_fatal_witness :
    stringsCount "a.ne-b.ne-." ".ne-" > 1 ∧
    ServeDNS env0 ⟨[⟨"a.ne-b.ne-.", 1⟩], [], []⟩ =
      ⟨Outcome.fatalRecursive, Trace.empty⟩ :=
  ⟨by decide,
   ServeDNS_loop_guard_fatal env0 ⟨[⟨"a.ne-b.ne-.", 1⟩], [], []⟩ ⟨"a.ne-b.ne-.", 1⟩ []
     rfl (by decide)⟩

/-- C1: when every upstream of the routed group fails and the group
declares an IPSet target, the handler does not return silently: the IPSet
write-back dereferences the nil response (`r.Answer` with `r == nil`) and
the process fails. -/
theorem ServeDNS_exhaustion_ipset_panics :
    ServeDNS exhaustEnv ⟨[⟨"example.com.", 16⟩], [], []⟩ =
      ⟨Outcome.panicNilAnswer,
       { Trace.empty with
          cacheChecked := true
          classifierCalls := 1
          invoked := ["8.8.8.8:53", "1.1.1.1:53"]
          cacheWrites := [⟨⟨"example.com.", 16⟩, [], none⟩, ⟨⟨"example.com.", 16⟩, [], none⟩] }⟩ := by
  decide

/-- C2 counterexample: the suffix table is a Go `map`, whose `range` order
is unspecified, so two enumerations of the same table (here related by
`List.Perm`) can route the same domain differently when it ends with more
than one configured suffix. -/
theorem getGroupName_order_dependent :
    List.Perm [("b.a", "g1"), ("a", "g2")] [("a", "g2"), ("b.a", "g1")] ∧
    getGroupName [("b.a", "g1"), ("a", "g2")] (fun _ => none) "x.b.a" ≠
      getGroupName [("a", "g2"), ("b.a", "g1")] (fun _ => none) "x.b.a" := by
  constructor
  · exact List.Perm.swap _ _ _
  · decide

/-- C2 (amended): for a fixed enumeration order of the suffix table the
router is a pure function of the domain and that order: the first entry
(in that order) whose suffix ends the domain wins, with reason
`"suffix " ++ suffix`, and the classifier is not consulted. -/
theorem getGroupNameFull_first_match (gfw : String → Option Bool)
    (pre post : List (String × String)) (sfx grp domain : String)
    (hpre : ∀ p ∈ pre, hasSuffix domain p.1 = false)
    (hs : hasSuffix domain sfx = true) :
    getGroupNameFull (pre ++ (sfx, grp) :: post) gfw domain =
      (grp, "suffix " ++ sfx, 0) := by
  induction pre with
  | nil => simp [getGroupNameFull, hs]
  | cons p pre ih =>
    obtain ⟨a, b⟩ := p
    have hp : hasSuffix domain a = false := hpre (a, b) (by simp)
    simpa [getGroupNameFull, hp] using ih fun q hq => hpre q (by simp [hq])

theorem getGroupNameFull_first_match_witness :
    hasSuffix "www.baidu.cn." "cn." = true ∧
    getGroupNameFull ([("org.", "g0")] ++ ("cn.", "clean") :: [("net.", "g2")])
        (fun _ => none) "www.baidu.cn." = ("clean", "suffix " ++ "cn.", 0) :=
  ⟨by decide,
   getGroupNameFull_first_match (fun _ => none) [("org.", "g0")] [("net.", "g2")]
     "cn." "clean" "www.baidu.cn." (by decide) (by decide)⟩

/-- C5 counterexample: suffix `"a"` is mapped to `"w2"` and the domain
`"m.d.a"` ends with it, yet the router can return the entry for the other
matching suffix `"d.a"`, so the claim "every domain ending in S routes to
G" fails as stated. -/
theorem getGroupName_suffix_shadowed :
    ("a", "w2") ∈ [("d.a", "w1"), ("a", "w2")] ∧
    hasSuffix "m.d.a" "a" = true ∧
    getGroupName [("d.a", "w1"), ("a", "w2")] (fun _ => none) "m.d.a" ≠
      ("w2", "suffix " ++ "a") := by
  refine ⟨by decide, by decide, by decide⟩

/-- C5 (amended): when S is the only configured suffix the domain ends
with, the domain routes to S's group with reason `"suffix " ++ S`, in any
enumeration order, and the classifier is not consulted (consult count 0). -/
theorem getGroupNameFull_unique_suffix (gfw : String → Option Bool)
    (order : List (String × String)) (sfx grp domain : String)
    (hmem : (sfx, grp) ∈ order)
    (hend : hasSuffix domain sfx = true)
    (huniq : ∀ p ∈ order, hasSuffix domain p.1 = true → p = (sfx, grp)) :
    getGroupNameFull order gfw domain = (grp, "suffix " ++ sfx, 0) := by
  induction order with
  | nil => cases hmem
  | cons p rest ih =>
    obtain ⟨a, b⟩ := p
    by_cases hab : hasSuffix domain a = true
    · have heq : (a, b) = (sfx, grp) := huniq (a, b) (by simp) hab
      rw [Prod.mk.injEq] at heq
      simp [getGroupNameFull, heq.1, heq.2, hend]
    · have hmem' : (sfx, grp) ∈ rest := by
        rcases List.mem_cons.mp hmem with h | h
        · injection h with h1 h2
          rw [h1] at hend
          exact absurd hend hab
        · exact h
      have hab' : hasSuffix domain a = false := by simpa using hab
      simpa [getGroupNameFull, hab'] using
        ih hmem' fun q hq hq2 => huniq q (by simp [hq]) hq2

theorem getGroupNameFull_unique_suffix_witness :
    ("cn.", "clean") ∈ [("org.", "g0"), ("cn.", "clean")] ∧
    hasSuffix "sina.cn." "cn." = true ∧
    getGroupNameFull [("org.", "g0"), ("cn.", "clean")] (fun _ => none)
      "sina.cn." = ("clean", "suffix " ++ "cn.", 0) :=
  ⟨by decide, by decide,
   getGroupNameFull_unique_suffix (fun _ => none) [("org.", "g0"), ("cn.", "clean")]
     "cn." "clean" "sina.cn." (by decide) (by decide) (by decide)⟩

/-- C6 counterexample: for a blocked classifier match the router returns
reason `"GFWList"`, not `"classifier"` as the claim literally states. -/
theorem getGroupName_reason_gfwlist :
    getGroupName [] (fun _ => some true) "blocked.example." = ("dirty", "GFWList") ∧
    getGroupName [] (fun _ => some true) "blocked.example." ≠ ("dirty", "classifier") := by
  refine ⟨by decide, by decide⟩

/-- C6 (amended): for a domain matching no configured suffix the
classifier is consulted exactly once and the router returns
`("dirty", "GFWList")` on a blocked match, `("clean", "GFWList")` on an
unblocked match, and `("clean", "default")` on no match; the router is
total, so no failure path exists. -/
theorem getGroupNameFull_classifier_cases (order : List (String × String))
    (gfw : String → Option Bool) (domain : String)
    (h : ∀ p ∈ order, hasSuffix domain p.1 = false) :
    getGroupNameFull order gfw domain =
      match gfw domain with
      | some true => ("dirty", "GFWList", 1)
      | some false => ("clean", "GFWList", 1)
      | none => ("clean", "default", 1) := by
  induction order with
  | nil => rfl
  | cons p rest ih =>
    obtain ⟨a, b⟩ := p
    have hp : hasSuffix domain a = false := h (a, b) (by simp)
    simpa [getGroupNameFull, hp] using ih fun q hq => h q (by simp [hq])

theorem getGroupNameFull_classifier_cases_witness :
    hasSuffix "x.com." "org." = false ∧
    getGroupNameFull [("org.", "g0")] (fun _ => some true) "x.com." =
      ("dirty", "GFWList", 1) :=
  ⟨by decide,
   getGroupNameFull_classifier_cases [("org.", "g0")] (fun _ => some true) "x.com."
     (by decide)⟩

/-- C3 counterexample: the HTTPS caller has no validation guard.  A
request with zero questions is packed and POSTed — network I/O happens and
no invalid-request error is signalled; a nil request is dereferenced by
`request.Pack()`. -/
theorem DoHCaller_Call_no_validation :
    DoHCaller.Call ⟨"https://dns.example/dns-query"⟩ (some ⟨[], [], []⟩)
        (fun _ => Except.ok []) (fun _ => Except.ok ⟨[], [], []⟩)
        (HttpNet.postOk []) = CallResult.io (some ⟨[], [], []⟩) none ∧
    CallResult.io (some (⟨[], [], []⟩ : Msg)) none ≠ CallResult.invalid ∧
    DoHCaller.Call ⟨"https://dns.example/dns-query"⟩ none
        (fun _ => Except.ok []) (fun _ => Except.ok ⟨[], [], []⟩)
        (HttpNet.postOk []) = CallResult.panicNilMsg := by
  refine ⟨rfl, by decide, rfl⟩

/-- C3 (amended): the UDP, TCP and TLS callers, which all go through
`call`, return the invalid-request error immediately — before any network
I/O — when the request is nil, has zero questions, or the address is
empty.  (The HTTPS caller performs no such validation.) -/
theorem call_guard_invalid (a : String) (req : Option Msg) (net : CallNet)
    (h : req = none ∨ (∃ m, req = some m ∧ m.question = []) ∨ a = "") :
    UDPCaller.Call ⟨a⟩ req net = CallResult.invalid ∧
    TCPCaller.Call ⟨a⟩ req net = CallResult.invalid ∧
    TLSCaller.Call ⟨a⟩ req net = CallResult.invalid := by
  have hc : call req a net = CallResult.invalid := by
    rcases h with rfl | ⟨m, rfl, hm⟩ | rfl
    · rfl
    · simp [call, hm]
    · cases req with
      | none => rfl
      | some m => simp [call]
  exact ⟨hc, hc, hc⟩

theorem call_guard_invalid_witness :
    UDPCaller.Call ⟨""⟩ (some ⟨[⟨"q.", 1⟩], [], []⟩) (CallNet.direct none none) =
      CallResult.invalid ∧
    TCPCaller.Call ⟨""⟩ (some ⟨[⟨"q.", 1⟩], [], []⟩) (CallNet.direct none none) =
      CallResult.invalid ∧
    TLSCaller.Call ⟨""⟩ (some ⟨[⟨"q.", 1⟩], [], []⟩) (CallNet.direct none none) =
      CallResult.invalid :=
  call_guard_invalid "" (some ⟨[⟨"q.", 1⟩], [], []⟩) (CallNet.direct none none)
    (Or.inr (Or.inr rfl))

/-- C4: the dispatch loop walks the group's servers in configured order;
all servers before the first one answering with a non-nil response are
invoked exactly once each (errors with nil responses just advance the
loop), the first non-nil response ends the loop — whatever its error value
— and no later server is invoked. -/
theorem dispatch_first_success (question : Question) (extra : List RR)
    (net : Nat → QueryNet) (pre post : List String) (server : String) (m : Msg)
    (hpre : ∀ i, i < pre.length → (queryDns question extra (net i)).1 = none)
    (hs : (queryDns question extra (net pre.length)).1 = some m) :
    (dispatch question extra net (pre ++ server :: post)).resp = some m ∧
    (dispatch question extra net (pre ++ server :: post)).invoked =
      pre ++ [server] := by
  induction pre generalizing net with
  | nil =>
    simp only [List.length_nil] at hs
    simp [dispatch, hs]
  | cons p pre ih =>
    have h0 : (queryDns question extra (net 0)).1 = none := hpre 0 (by simp)
    have ih' := ih (fun i => net (i + 1))
      (fun i hi => hpre (i + 1) (by simpa using Nat.succ_lt_succ hi))
      (by simpa using hs)
    simp only [List.cons_append, dispatch, h0]
    exact ⟨ih'.1, by simp [ih'.2]⟩

theorem dispatch_first_success_witness :
    (dispatch ⟨"q.", 1⟩ [] netFailThenOk (["a"] ++ "b" :: ["c"])).resp =
      some ⟨[], [RR.A "1.2.3.4"], []⟩ ∧
    (dispatch ⟨"q.", 1⟩ [] netFailThenOk (["a"] ++ "b" :: ["c"])).invoked =
      ["a"] ++ ["b"] :=
  dispatch_first_success ⟨"q.", 1⟩ [] netFailThenOk ["a"] ["c"] "b"
    ⟨[], [RR.A "1.2.3.4"], []⟩
    (fun i hi => by
      simp only [List.length_cons, List.length_nil] at hi
      have h0 : i = 0 := by omega
      rw [h0]; rfl)
    (by decide)

/-- C8: whenever dispatch runs at least one attempt, every cache write it
performs is keyed by the request's question and extra records, there is
one write per invoked server, and the last write records exactly the
response dispatch returns — including the all-failed case, where a `none`
response is written back. -/
theorem dispatch_always_caches (question : Question) (extra : List RR)
    (net : Nat → QueryNet) (servers : List String) (hne : servers ≠ []) :
    (∀ w ∈ (dispatch question extra net servers).writes,
        w.question = question ∧ w.extra = extra) ∧
    (dispatch question extra net servers).writes.length =
      (dispatch question extra net servers).invoked.length ∧
    ∃ prev, (dispatch question extra net servers).writes =
      prev ++ [⟨question, extra, (dispatch question extra net servers).resp⟩] := by
  induction servers generalizing net with
  | nil => exact absurd rfl hne
  | cons s rest ih =>
    cases hq : (queryDns question extra (net 0)).1 with
    | some m =>
      have hw := queryDns_writes question extra (net 0)
      rw [hq] at hw
      refine ⟨?_, ?_, [], ?_⟩ <;> simp [dispatch, hq, hw]
    | none =>
      have hw := queryDns_writes question extra (net 0)
      rw [hq] at hw
      by_cases hrest : rest = []
      · subst hrest
        refine ⟨?_, ?_, [], ?_⟩ <;> simp [dispatch, hq, hw]
      · obtain ⟨ha, hlen, prev, hprev⟩ := ih (fun i => net (i + 1)) hrest
        refine ⟨?_, ?_, ⟨question, extra, none⟩ :: prev, ?_⟩
        · intro w hwmem
          simp only [dispatch, hq, hw] at hwmem
          rcases List.mem_append.mp hwmem with h | h
          · rcases List.mem_singleton.mp h with rfl
            exact ⟨rfl, rfl⟩
          · exact ha w h
        · simp [dispatch, hq, hw, hlen]
        · simp [dispatch, hq, hw, hprev]

theorem dispatch_always_caches_witness :
    (∀ w ∈ (dispatch ⟨"w.", 1⟩ [] (fun _ => QueryNet.direct none none) ["a"]).writes,
        w.question = ⟨"w.", 1⟩ ∧ w.extra = []) ∧
    (dispatch ⟨"w.", 1⟩ [] (fun _ => QueryNet.direct none none) ["a"]).writes.length =
      (dispatch ⟨"w.", 1⟩ [] (fun _ => QueryNet.direct none none) ["a"]).invoked.length ∧
    ∃ prev, (dispatch ⟨"w.", 1⟩ [] (fun _ => QueryNet.direct none none) ["a"]).writes =
      prev ++ [⟨⟨"w.", 1⟩, [],
        (dispatch ⟨"w.", 1⟩ [] (fun _ => QueryNet.direct none none) ["a"]).resp⟩] :=
  dispatch_always_caches ⟨"w.", 1⟩ [] (fun _ => QueryNet.direct none none) ["a"]
    (by decide)

/-- C7 counterexample: the first non-empty hosts record does make the
handler return before cache and dispatch, but it need not produce an
answer: when `dns.NewRR` rejects the record text (the handler's own
parse-error branch), no reply is sent at all, against the claim's "causes
a direct answer built from that record". -/
theorem ServeDNS_hosts_unparsable_record :
    HostsReader.genRecord ⟨fun _ _ => "not a valid rr"⟩ "a" typeA ≠ "" ∧
    ServeDNS hostsBadEnv ⟨[⟨"a.", typeA⟩], [], []⟩ =
      ⟨Outcome.ok none, { Trace.empty with hostsConsulted := 1 }⟩ := by
  refine ⟨by decide, by decide⟩

/-- C7 (amended): for an address-family query, the first hosts source (in
priority order) producing a non-empty record — looking up the name with
the trailing character stripped first and falling back to the unstripped
name — makes the handler return immediately, skipping cache lookup,
routing and upstream dispatch entirely; the reply is the answer built from
that record when `dns.NewRR` accepts it, and nothing otherwise. -/
theorem ServeDNS_hosts_first_record (env : Env) (request : Msg)
    (question : Question) (qs : List Question)
    (pre post : List HostsReader) (reader : HostsReader) (record : String)
    (hreaders : env.hostsReaders = pre ++ reader :: post)
    (hq : request.question = question :: qs)
    (htype : question.qtype = typeA ∨ question.qtype = typeAAAA)
    (hguard : ¬ stringsCount question.name ".ne-" > 1)
    (hname : question.name ≠ "")
    (hpre : ∀ rd ∈ pre,
      rd.genRecord (question.name.dropRight 1) question.qtype = "" ∧
      rd.genRecord question.name question.qtype = "")
    (hrec : record =
      (if reader.genRecord (question.name.dropRight 1) question.qtype = ""
       then reader.genRecord question.name question.qtype
       else reader.genRecord (question.name.dropRight 1) question.qtype))
    (hne : record ≠ "") :
    ServeDNS env request =
      ⟨Outcome.ok ((env.newRR record).map fun rr =>
          setReply ⟨[], [rr], []⟩ request),
       { Trace.empty with hostsConsulted := pre.length + 1 }⟩ := by
  have hhosts := hostsLookup_first env.newRR question.name question.qtype
    pre post reader record hname hpre hrec hne
  simp only [ServeDNS, hq, hguard, if_false, htype, if_true, hreaders, hhosts]
  cases h : env.newRR record <;> simp [h]

theorem ServeDNS_hosts_first_record_witness :
    ServeDNS
      { hostsReaders := [⟨fun n t => if n = "h" ∧ t = typeA then "h. 0 IN A 1.2.3.4" else ""⟩]
        newRR := fun s => if s = "h. 0 IN A 1.2.3.4" then some (RR.A "1.2.3.4") else none
        cacheGet := fun _ _ => none
        suffixOrder := []
        gfw := fun _ => none
        groups := []
        net := fun _ => QueryNet.direct none none }
      ⟨[⟨"h.", typeA⟩], [], []⟩ =
      ⟨Outcome.ok (some (setReply ⟨[], [RR.A "1.2.3.4"], []⟩ ⟨[⟨"h.", typeA⟩], [], []⟩)),
       { Trace.empty with hostsConsulted := 1 }⟩ := by
  have h := ServeDNS_hosts_first_record
    { hostsReaders := [⟨fun n t => if n = "h" ∧ t = typeA then "h. 0 IN A 1.2.3.4" else ""⟩]
      newRR := fun s => if s = "h. 0 IN A 1.2.3.4" then some (RR.A "1.2.3.4") else none
      cacheGet := fun _ _ => none
      suffixOrder := []
      gfw := fun _ => none
      groups := []
      net := fun _ => QueryNet.direct none none }
    ⟨[⟨"h.", typeA⟩], [], []⟩ ⟨"h.", typeA⟩ [] [] []
    ⟨fun n t => if n = "h" ∧ t = typeA then "h. 0 IN A 1.2.3.4" else ""⟩
    "h. 0 IN A 1.2.3.4" rfl rfl (Or.inl rfl) (by decide) (by decide)
    (by intro rd hrd; cases hrd) (by decide) (by decide)
  simpa using h

end TsDns
